/-
Verification of the dln-taker order-execution core.

Shallow embedding of the source files:
  * the Executor dispatcher (executeOrder, getConfirmationRanges, filter
    assembly at chain initialization),
  * the UniversalProcessor (constructor parameter validation, the
    tryProcess / pickNextOrder queue state machine, processOrder),
  * the StrictProcessor (process).

External services (chain clients, price feeds, transaction sending) are
modelled as oracle inputs: each external call result is a field of an
environment record, so the control flow of the embedded functions is a
direct transcription of the source.
-/
import Mathlib

/-! ### Basic data model -/

/-- Chain identifier, as in the dln-client ChainId enum. -/
abbrev ChainId := Nat

/-- The numeric value of ChainId.Solana in the dln-client enum. -/
def solanaChainId : ChainId := 7565164

/-- Order identifier: a 32-byte content hash rendered as a string.
The empty string models a JS falsy (missing) orderId. -/
abbrev OrderId := String

/-- Statuses of incoming order events, from the OrderInfoStatus enum. -/
inductive OrderInfoStatus where
  | Created
  | ArchivalCreated
  | Fulfilled
  | ArchivalFulfilled
  | Cancelled
  | Other
deriving DecidableEq, Repr

/-- On-chain order states, from the dln-client OrderState enum
(only the constructors the embedded code inspects are relevant). -/
inductive OrderState where
  | NotSet
  | Created
  | Fulfilled
  | SentUnlock
  | ClaimedUnlock
deriving DecidableEq, Repr

/-- One side (give or take) of an order: the chain and the token address
as a byte buffer. -/
structure OrderSide where
  chainId : ChainId
  tokenAddress : List Nat
deriving DecidableEq, Repr

/-- The order payload: the give side on the source chain and the take side
on the destination chain. -/
structure OrderData where
  give : OrderSide
  take : OrderSide
deriving DecidableEq, Repr

/-- An event delivered by the order feed: orderId, status and the order
payload (none models a missing / undefined payload). -/
structure IncomingOrder where
  orderId : OrderId
  status : OrderInfoStatus
  order : Option OrderData
deriving DecidableEq, Repr

/-! ### Executor dispatch (executeOrder) -/

/-- A filter is a predicate over the order; the runtime context argument of
the source filters is abstracted away since the embedded claims quantify
over arbitrary filter behaviour. -/
abbrev OrderFilter := OrderData → Bool

/-- The per-chain configuration slice executeOrder consults: the effective
dstFilters (which, per the init code, already contain the global filters)
and the srcFilters. -/
structure ExecutorChain where
  dstFilters : List OrderFilter
  srcFilters : List OrderFilter

/-- Filter used for disabled chains.
Modelled from the spec: filters.disableFulfill is referenced by the init
code but its body is not among the given sources; the spec states it
always returns false. -/
def disableFulfill : OrderFilter := fun _ => false

/-- Assembly of the effective dstFilters list at chain initialization:
the chain dstFilters, then disableFulfill when the chain is disabled,
then the global filters (config.filters) appended at the end. -/
def mkDstFilters (chainDstFilters : List OrderFilter) (disabled : Bool)
    (globalFilters : List OrderFilter) : List OrderFilter :=
  (chainDstFilters ++ (if disabled then [disableFulfill] else [])) ++ globalFilters

/-- Outcome of Executor.executeOrder, one constructor per exit path. -/
inductive ExecuteResult where
  | thrown (msg : String)
  | droppedTakeChainNotConfigured
  | droppedGiveChainNotConfigured
  | droppedByFilters
  | forwarded
deriving DecidableEq, Repr

/-- Executor.executeOrder: throw when the order payload or orderId is
missing; drop when either chain is not configured; for Created and
ArchivalCreated events evaluate every filter of
takeChain.dstFilters ++ giveChain.srcFilters and forward only when all
approve; forward every other status unconditionally. -/
def executeOrder (chains : ChainId → Option ExecutorChain)
    (ev : IncomingOrder) : ExecuteResult :=
  match ev.order with
  | none => .thrown "Order is undefined"
  | some order =>
    if ev.orderId = "" then .thrown "Order is undefined"
    else
      match chains order.take.chainId with
      | none => .droppedTakeChainNotConfigured
      | some takeChain =>
        match chains order.give.chainId with
        | none => .droppedGiveChainNotConfigured
        | some giveChain =>
          let listOrderFilters := takeChain.dstFilters ++ giveChain.srcFilters
          if ev.status = .Created ∨ ev.status = .ArchivalCreated then
            if listOrderFilters.all (fun f => f order) then .forwarded
            else .droppedByFilters
          else .forwarded

/-! ### Confirmation thresholds (getConfirmationRanges) -/

/-- The chains of the SupportedChain enum. -/
inductive SupportedChain where
  | Avalanche
  | Arbitrum
  | BSC
  | Ethereum
  | Polygon
  | Solana
  | Fantom
deriving DecidableEq, Repr

/-- BLOCK_CONFIRMATIONS_HARD_CAPS from the Executor module. -/
def BLOCK_CONFIRMATIONS_HARD_CAPS : SupportedChain → Nat
  | .Avalanche => 15
  | .Arbitrum => 15
  | .BSC => 15
  | .Ethereum => 12
  | .Polygon => 256
  | .Solana => 32
  | .Fantom => 15

/-- An entry of constraints.requiredConfirmationsThresholds. -/
structure ConfirmationThreshold where
  thresholdAmountInUSD : Nat
  minBlockConfirmations : Nat
deriving DecidableEq, Repr

/-- An entry of the UsdWorthBlockConfirmationConstraints array built by
getConfirmationRanges. -/
structure ConfirmationRange where
  usdWorthFrom : Nat
  usdWorthTo : Nat
  minBlockConfirmations : Nat
deriving DecidableEq, Repr

/-- Ascending order on the USD amount of thresholds (the sort comparator
of getConfirmationRanges). -/
def usdLE (a b : ConfirmationThreshold) : Prop :=
  a.thresholdAmountInUSD ≤ b.thresholdAmountInUSD

instance : DecidableRel usdLE := fun a b =>
  inferInstanceAs (Decidable (a.thresholdAmountInUSD ≤ b.thresholdAmountInUSD))

instance : IsTotal ConfirmationThreshold usdLE :=
  ⟨fun a b => Nat.le_total a.thresholdAmountInUSD b.thresholdAmountInUSD⟩

instance : IsTrans ConfirmationThreshold usdLE :=
  ⟨fun _ _ _ h1 h2 => Nat.le_trans h1 h2⟩

/-- The sort-by-usdWorth-ascending step of getConfirmationRanges. -/
def sortThresholds (ts : List ConfirmationThreshold) : List ConfirmationThreshold :=
  List.insertionSort usdLE ts

/-- The forEach body of getConfirmationRanges: walk the sorted thresholds
carrying the previous entry (initially zero), throw when a threshold does
not strictly exceed the previous minBlockConfirmations or does not stay
strictly below the hard cap, and otherwise emit the range. -/
def checkThresholds (cap : Nat) (prev : ConfirmationThreshold) :
    List ConfirmationThreshold → Except String (List ConfirmationRange)
  | [] => .ok []
  | t :: rest =>
    if t.minBlockConfirmations ≤ prev.minBlockConfirmations then
      .error "minBlockConfirmations must be greater than the previous one"
    else if cap ≤ t.minBlockConfirmations then
      .error "minBlockConfirmations must be less than max block confirmations"
    else
      match checkThresholds cap t rest with
      | .error e => .error e
      | .ok rs =>
        .ok ({ usdWorthFrom := prev.thresholdAmountInUSD,
               usdWorthTo := t.thresholdAmountInUSD,
               minBlockConfirmations := t.minBlockConfirmations } :: rs)

/-- Executor.getConfirmationRanges: sort the configured thresholds by USD
amount ascending, then validate and build the ranges; an Except.error
models the thrown startup error. -/
def getConfirmationRanges (chain : SupportedChain)
    (thresholds : List ConfirmationThreshold) : Except String (List ConfirmationRange) :=
  checkThresholds (BLOCK_CONFIRMATIONS_HARD_CAPS chain)
    { thresholdAmountInUSD := 0, minBlockConfirmations := 0 }
    (sortThresholds thresholds)

/-- Whether an Except value is a success. -/
def exOk {ε α : Type} : Except ε α → Bool
  | .ok _ => true
  | .error _ => false

/-- The validity condition getConfirmationRanges enforces on the sorted
threshold list: each minBlockConfirmations strictly above the previous one
(starting from 0) and strictly below the hard cap. -/
def validThresholdSeq (cap : Nat) : Nat → List ConfirmationThreshold → Bool
  | _, [] => true
  | prevBC, t :: rest =>
    decide (prevBC < t.minBlockConfirmations) &&
      decide (t.minBlockConfirmations < cap) &&
      validThresholdSeq cap t.minBlockConfirmations rest

/-! ### UniversalProcessor constructor parameters -/

/-- UniversalProcessorParams with the source defaults. -/
structure UniversalProcessorParams where
  minProfitabilityBps : Nat
  mempoolInterval : Nat
  batchUnlockSize : Nat
deriving DecidableEq, Repr

/-- The optional parameter object the constructor accepts
(a TS Partial of UniversalProcessorParams). -/
structure ProcessorParamsInput where
  minProfitabilityBps : Option Nat := none
  mempoolInterval : Option Nat := none
  batchUnlockSize : Option Nat := none
deriving DecidableEq, Repr

/-- The UniversalProcessor constructor: reject a batchUnlockSize outside
[1, 10], otherwise merge the given fields over the defaults
minProfitabilityBps = 4, mempoolInterval = 60, batchUnlockSize = 10. -/
def mkUniversalProcessorParams (p : Option ProcessorParamsInput) :
    Except String UniversalProcessorParams :=
  let bus := p.bind (fun q => q.batchUnlockSize)
  if (match bus with
      | some b => decide (10 < b) || decide (b < 1)
      | none => false) then
    .error "batchUnlockSize should be in [1, 10]"
  else
    .ok { minProfitabilityBps := ((p.bind (fun q => q.minProfitabilityBps)).getD 4),
          mempoolInterval := ((p.bind (fun q => q.mempoolInterval)).getD 60),
          batchUnlockSize := bus.getD 10 }

/-! ### UniversalProcessor.processOrder -/

/-- A TokensBucket: for each chain an ordered list of token addresses.
findFirstToken returns the head of the list for the chain. -/
structure TokensBucket where
  tokens : ChainId → List (List Nat)

/-- TokensBucket.findFirstToken. -/
def findFirstToken (b : TokensBucket) (c : ChainId) : Option (List Nat) :=
  (b.tokens c).head?

/-- The bucket predicate of processOrder: the bucket has a token on both
the give chain and the take chain. -/
def coversBothChains (order : OrderData) (b : TokensBucket) : Bool :=
  (findFirstToken b order.give.chainId).isSome &&
    (findFirstToken b order.take.chainId).isSome

/-- The take-side status condition that makes processOrder throw
"Order is fulfilled": the queried status object is present and its status
differs from NotSet (an absent status passes). -/
def takeStatusBlocks : Option OrderState → Bool
  | some s => !(s == OrderState.NotSet)
  | none => false

/-- Errors thrown by processOrder (per-order fatal exits). -/
inductive ProcError where
  | orderEmpty
  | noReserveCoverage
  | alreadyFulfilled
  | notCreatedOnSource
  | fulfillmentNotObserved
deriving DecidableEq, Repr

/-- Normal exits of processOrder: deferred to the mempool, or fulfilled
and handed to the batch unlocker. -/
inductive ProcOutcome where
  | mempooled
  | completed
deriving DecidableEq, Repr

/-- Oracle environment for one processOrder run: the order under
processing plus the result of every external call it performs, in program
order. -/
structure ProcessOrderEnv where
  order : Option OrderData
  orderId : OrderId
  buckets : List TokensBucket
  takeOrderStatus : Option OrderState
  giveOrderStatus : Option OrderState
  isProfitable : Bool
  accountReserveBalance : Nat
  requiredReserveDstAmount : Nat
  fulfillSendOk : Bool
  fulfillObserved : Bool

/-- UniversalProcessor.processOrder as a function of its oracle
environment. Control flow follows the source: empty order check, reserve
bucket discovery, take-side status check, give-side status check,
profitability gate, balance gate, fulfill transaction send, fulfillment
wait, unlock. The fulfillObserved field stands for waitIsOrderFulfilled.
Modelled from the spec: waitIsOrderFulfilled lives in the base class that
is not among the given sources; the spec states it polls the take-side
status up to 10 times and raises a failure when the bound is exceeded. -/
def processOrder (env : ProcessOrderEnv) : Except ProcError ProcOutcome :=
  match env.order with
  | none => .error .orderEmpty
  | some order =>
    if env.orderId = "" then .error .orderEmpty
    else if (env.buckets.find? (coversBothChains order)).isSome = false then
      .error .noReserveCoverage
    else if takeStatusBlocks env.takeOrderStatus then
      .error .alreadyFulfilled
    else if ¬ (env.giveOrderStatus = some OrderState.Created) then
      .error .notCreatedOnSource
    else if env.isProfitable = false then
      .ok .mempooled
    else if env.accountReserveBalance < env.requiredReserveDstAmount then
      .ok .mempooled
    else if env.fulfillSendOk = false then
      .ok .mempooled
    else if env.fulfillObserved = false then
      .error .fulfillmentNotObserved
    else
      .ok .completed

/-! ### UniversalProcessor queues (tryProcess / pickNextOrder) -/

/-- The two kinds of events that can be postponed into the queues. -/
inductive CreatedKind where
  | created
  | archivalCreated
deriving DecidableEq, Repr

/-- The queue state of a UniversalProcessor: priorityQueue and queue are
insertion-ordered sets of orderIds, incomingOrdersMap (pending) maps an
orderId to the kind of its latest postponed event. -/
structure ProcQueues where
  prio : List OrderId
  sec : List OrderId
  pending : List (OrderId × CreatedKind)
deriving DecidableEq, Repr

/-- JS Set.add: append unless already a member. -/
def setAdd (xs : List OrderId) (x : OrderId) : List OrderId :=
  if x ∈ xs then xs else xs ++ [x]

/-- JS Map.set: update in place when the key exists, append otherwise. -/
def mapSet (m : List (OrderId × CreatedKind)) (k : OrderId) (v : CreatedKind) :
    List (OrderId × CreatedKind) :=
  if (m.find? (fun p => p.1 == k)).isSome then
    m.map (fun p => if p.1 == k then (k, v) else p)
  else m ++ [(k, v)]

/-- JS Map.delete. -/
def mapDelete (m : List (OrderId × CreatedKind)) (k : OrderId) :
    List (OrderId × CreatedKind) :=
  m.filter (fun p => !(p.1 == k))

/-- JS Map.get. -/
def lookupPending (m : List (OrderId × CreatedKind)) (k : OrderId) :
    Option CreatedKind :=
  (m.find? (fun p => p.1 == k)).map (fun p => p.2)

/-- The locked branch of tryProcess: ArchivalCreated goes to the secondary
queue, Created to the priority queue, and incomingOrdersMap records the
event. -/
def postpone (st : ProcQueues) (id : OrderId) (k : CreatedKind) : ProcQueues :=
  match k with
  | .archivalCreated =>
    { st with sec := setAdd st.sec id, pending := mapSet st.pending id k }
  | .created =>
    { st with prio := setAdd st.prio id, pending := mapSet st.pending id k }

/-- UniversalProcessor.pickNextOrder: take the first element of the
priority queue, falling back (also on a falsy empty-string id, as the
source uses the JS or-operator) to the first element of the secondary
queue; when an id is found, delete it from both queues and from
incomingOrdersMap and return its recorded event. -/
def pickNextOrder (st : ProcQueues) : Option (OrderId × CreatedKind) × ProcQueues :=
  let nextOrderId :=
    match st.prio.head? with
    | some s => if s = "" then st.sec.head? else some s
    | none => st.sec.head?
  match nextOrderId with
  | none => (none, st)
  | some id =>
    if id = "" then (none, st)
    else
      ((lookupPending st.pending id).map (fun k => (id, k)),
       { prio := st.prio.filter (fun s => !(s == id)),
         sec := st.sec.filter (fun s => !(s == id)),
         pending := mapDelete st.pending id })

/-- The drain loop at the end of tryProcess: after the current order
completes, repeatedly pick the next order and process it, stopping when
pickNextOrder yields nothing. Returns the final queue state and the ids
processed, in processing order. Fuel bounds the recursion; drainAll
supplies enough fuel to empty the queues. -/
def drainLoop : ProcQueues → Nat → ProcQueues × List OrderId
  | st, 0 => (st, [])
  | st, fuel + 1 =>
    match pickNextOrder st with
    | (none, st2) => (st2, [])
    | (some (id, _), st2) =>
      let r := drainLoop st2 fuel
      (r.1, id :: r.2)

/-- drainLoop with fuel sufficient to empty both queues. -/
def drainAll (st : ProcQueues) : ProcQueues × List OrderId :=
  drainLoop st (st.prio.length + st.sec.length)

/-! ### Interleaved machine for the serialization invariant -/

/-- Observable state of one destination-chain processor: the queues, the
isLocked flag, and the multiset of currently running processOrder
invocations (a list, so that the at-most-one property is provable rather
than assumed). -/
structure Machine where
  q : ProcQueues
  locked : Bool
  active : List OrderId
deriving DecidableEq, Repr

/-- The initial machine: empty queues, unlocked, nothing active. -/
def machine0 : Machine :=
  { q := { prio := [], sec := [], pending := [] }, locked := false, active := [] }

/-- Arrival of a Created or ArchivalCreated event (tryProcess entry):
when locked, only postpone into the queues; when idle, set the lock and
start processing the order. -/
def arriveStep (s : Machine) (id : OrderId) (k : CreatedKind) : Machine :=
  if s.locked then { s with q := postpone s.q id k }
  else { q := s.q, locked := true, active := id :: s.active }

/-- Completion of the running processOrder: clear the lock, then (with no
yield point in between, as in the source) pick the next order and, when
one exists, relock and start processing it. -/
def completeStep (s : Machine) (rest : List OrderId) : Machine :=
  match pickNextOrder s.q with
  | (some nxt, q2) => { q := q2, locked := true, active := nxt.1 :: rest }
  | (none, q2) => { q := q2, locked := false, active := rest }

/-- The transitions of the processor machine: an event arrival at any
time, or completion of a running processOrder. -/
inductive Step : Machine → Machine → Prop where
  | arrive (s : Machine) (id : OrderId) (k : CreatedKind) :
      Step s (arriveStep s id k)
  | complete (s : Machine) (id : OrderId) (rest : List OrderId)
      (h : s.active = id :: rest) : Step s (completeStep s rest)

/-- States reachable from the initial machine. -/
inductive Reachable : Machine → Prop where
  | base : Reachable machine0
  | next (s t : Machine) (hs : Reachable s) (st : Step s t) : Reachable t

/-! ### StrictProcessor.process -/

/-- Byte-buffer equality, as in utils/buffersAreEqual. -/
def buffersAreEqual (a b : List Nat) : Bool := a == b

/-- Oracle environment for one StrictProcessor.process run: the approved
token buffers, the take token of the order, the take chain, and the
results of the external calls in program order. -/
structure StrictEnv where
  approvedTokensInBuffer : List (List Nat)
  takeTokenAddress : List Nat
  takeChainId : ChainId
  orderFulfilledHit : Bool
  fulfillSendOk : Bool
  solanaFulfillObserved : Bool
  unlockSendOk : Bool

/-- Exits of StrictProcessor.process, one constructor per exit path. -/
inductive StrictResult where
  | notAllowed
  | thrownOrderIsFulfilled
  | fulfillSendFailed
  | thrownWaitRetriesExceeded
  | thrownUnlockSendFailed
  | completed
deriving DecidableEq, Repr

/-- StrictProcessor.process as a function of its oracle environment:
return at once when the take token byte-equals no approved token; throw
when the orderFulfilledMap already holds the orderId; return when the
fulfill transaction send fails; on a Solana take chain, throw when the
fulfillment wait loop exhausts its retries; throw when the unlock
transaction send fails; otherwise complete with fulfill and immediate
unlock. There is no profitability gate and no mempool in this policy. -/
def strictProcess (env : StrictEnv) : StrictResult :=
  if !(env.approvedTokensInBuffer.any
      (fun address => buffersAreEqual env.takeTokenAddress address)) then
    .notAllowed
  else if env.orderFulfilledHit then
    .thrownOrderIsFulfilled
  else if env.fulfillSendOk = false then
    .fulfillSendFailed
  else if env.takeChainId = solanaChainId ∧ env.solanaFulfillObserved = false then
    .thrownWaitRetriesExceeded
  else if env.unlockSendOk = false then
    .thrownUnlockSendFailed
  else
    .completed

/-! ### Helper lemmas -/

theorem setAdd_idem (xs : List OrderId) (x : OrderId) :
    setAdd (setAdd xs x) x = setAdd xs x := by
  unfold setAdd
  by_cases h : x ∈ xs
  · simp [h]
  · simp [h]

theorem checkThresholds_ok_iff (cap : Nat) :
    ∀ (l : List ConfirmationThreshold) (prev : ConfirmationThreshold),
      exOk (checkThresholds cap prev l) =
        validThresholdSeq cap prev.minBlockConfirmations l := by
  intro l
  induction l with
  | nil => intro prev; rfl
  | cons t rest ih =>
    intro prev
    unfold checkThresholds validThresholdSeq
    by_cases h1 : t.minBlockConfirmations ≤ prev.minBlockConfirmations
    · have : ¬ prev.minBlockConfirmations < t.minBlockConfirmations := Nat.not_lt.mpr h1
      simp [h1, exOk, this]
    · by_cases h2 : cap ≤ t.minBlockConfirmations
      · have : ¬ t.minBlockConfirmations < cap := Nat.not_lt.mpr h2
        simp [h1, h2, exOk, this]
      · have hlt1 : prev.minBlockConfirmations < t.minBlockConfirmations := Nat.lt_of_not_le h1
        have hlt2 : t.minBlockConfirmations < cap := Nat.lt_of_not_le h2
        simp only [if_neg h1, if_neg h2]
        cases hrec : checkThresholds cap t rest with
        | error e =>
          have := ih t
          rw [hrec] at this
          simp [exOk] at this ⊢
          simp [hlt1, hlt2, ← this]
        | ok rs =>
          have := ih t
          rw [hrec] at this
          simp [exOk] at this ⊢
          simp [hlt1, hlt2, ← this]

theorem validSeq_props (cap : Nat) :
    ∀ (l : List ConfirmationThreshold) (p : Nat), validThresholdSeq cap p l = true →
      (∀ t ∈ l, p < t.minBlockConfirmations ∧ t.minBlockConfirmations < cap) ∧
      List.Pairwise
        (fun a b : ConfirmationThreshold =>
          a.minBlockConfirmations < b.minBlockConfirmations) l := by
  intro l
  induction l with
  | nil => intro p _; exact ⟨fun t ht => absurd ht (List.not_mem_nil t), List.Pairwise.nil⟩
  | cons t rest ih =>
    intro p h
    unfold validThresholdSeq at h
    simp only [Bool.and_eq_true, decide_eq_true_eq] at h
    obtain ⟨⟨hp, hc⟩, hrest⟩ := h
    obtain ⟨ihb, ihp⟩ := ih t.minBlockConfirmations hrest
    refine ⟨?_, ?_⟩
    · intro x hx
      rcases List.mem_cons.mp hx with rfl | hx
      · exact ⟨hp, hc⟩
      · exact ⟨Nat.lt_trans hp (ihb x hx).1, (ihb x hx).2⟩
    · exact List.Pairwise.cons (fun x hx => (ihb x hx).1) ihp

theorem pairwise_usd_bc :
    ∀ l : List ConfirmationThreshold,
      List.Pairwise usdLE l →
      List.Pairwise
        (fun a b : ConfirmationThreshold =>
          a.minBlockConfirmations < b.minBlockConfirmations) l →
      ∀ t1 ∈ l, ∀ t2 ∈ l,
        t1.thresholdAmountInUSD < t2.thresholdAmountInUSD →
        t1.minBlockConfirmations < t2.minBlockConfirmations := by
  intro l
  induction l with
  | nil => intro _ _ t1 h1; exact absurd h1 (List.not_mem_nil t1)
  | cons t rest ih =>
    intro hu hb t1 h1 t2 h2 husd
    have hu2 := List.pairwise_cons.mp hu
    have hb2 := List.pairwise_cons.mp hb
    rcases List.mem_cons.mp h1 with he1 | hm1
    · rcases List.mem_cons.mp h2 with he2 | hm2
      · rw [he1, he2] at husd
        exact absurd husd (Nat.lt_irrefl _)
      · rw [he1]
        exact hb2.1 t2 hm2
    · rcases List.mem_cons.mp h2 with he2 | hm2
      · rw [he2] at husd
        exact absurd (Nat.lt_of_le_of_lt (hu2.1 t1 hm1) husd) (Nat.lt_irrefl _)
      · exact ih hu2.2 hb2.2 t1 hm1 t2 hm2 husd

/-! ### Claim theorems -/

/-- C7: constructing a UniversalProcessor with a batchUnlockSize outside
[1, 10] throws a startup error; with the parameter object omitted the
defaults are batchUnlockSize = 10, minProfitabilityBps = 4 and
mempoolInterval = 60. -/
theorem universalProcessor_params_spec :
    (∀ (p : ProcessorParamsInput) (b : Nat), p.batchUnlockSize = some b →
        (b < 1 ∨ 10 < b) →
        mkUniversalProcessorParams (some p) =
          .error "batchUnlockSize should be in [1, 10]") ∧
    mkUniversalProcessorParams none =
      .ok { minProfitabilityBps := 4, mempoolInterval := 60, batchUnlockSize := 10 } := by
  constructor
  · intro p b hb hr
    have hcond : (decide (10 < b) || decide (b < 1)) = true := by
      rcases hr with h | h <;> simp [h]
    simp [mkUniversalProcessorParams, hb, hcond]
    intro hle
    rcases hr with h | h <;> omega
  · rfl

/-- Witness for C7 at batchUnlockSize = 0. -/
theorem universalProcessor_params_spec_witness :
    mkUniversalProcessorParams
        (some { batchUnlockSize := some 0 }) =
      .error "batchUnlockSize should be in [1, 10]" :=
  universalProcessor_params_spec.1 { batchUnlockSize := some 0 } 0 rfl (Or.inl (by decide))

/-- C10: an event whose order payload or orderId is missing makes
Executor.executeOrder throw before any chain lookup, filter run or
forwarding, for every status; likewise UniversalProcessor.processOrder
throws on an empty order or orderId. -/
theorem undefined_order_throws :
    (∀ (chains : ChainId → Option ExecutorChain) (ev : IncomingOrder),
        ev.order = none ∨ ev.orderId = "" →
        executeOrder chains ev = .thrown "Order is undefined") ∧
    (∀ env : ProcessOrderEnv, env.order = none ∨ env.orderId = "" →
        processOrder env = .error .orderEmpty) := by
  constructor
  · intro chains ev h
    rcases h with h | h
    · simp [executeOrder, h]
    · cases hord : ev.order with
      | none => simp [executeOrder, hord]
      | some o => simp [executeOrder, hord, h]
  · intro env h
    rcases h with h | h
    · simp [processOrder, h]
    · cases hord : env.order with
      | none => simp [processOrder, hord]
      | some o => simp [processOrder, hord, h]

/-- Witness for C10 on a Fulfilled event with a missing payload and an
empty-id processOrder environment. -/
theorem undefined_order_throws_witness :
    executeOrder (fun _ => none)
        { orderId := "x", status := .Fulfilled, order := none } =
      .thrown "Order is undefined" ∧
    processOrder
        { order := some { give := { chainId := 1, tokenAddress := [] },
                          take := { chainId := 2, tokenAddress := [] } },
          orderId := "", buckets := [], takeOrderStatus := none,
          giveOrderStatus := none, isProfitable := true,
          accountReserveBalance := 0, requiredReserveDstAmount := 0,
          fulfillSendOk := true, fulfillObserved := true } =
      .error .orderEmpty :=
  ⟨undefined_order_throws.1 _ _ (Or.inl rfl),
   undefined_order_throws.2 _ (Or.inr rfl)⟩

/-- C5: with a present order and orderId, processOrder throws a per-order
fatal error in exactly the three precheck cases: no bucket covering both
chains (noReserveCoverage), a take-side status other than NotSet or absent
(alreadyFulfilled), and a give-side status other than Created
(notCreatedOnSource); the equivalences also fix the order the checks run
in. A thrown error never adds the order to the mempool, as the mempooled
outcome is a non-error result. -/
theorem processOrder_precheck_errors (env : ProcessOrderEnv) (order : OrderData)
    (ho : env.order = some order) (hid : ¬ env.orderId = "") :
    (processOrder env = .error .noReserveCoverage ↔
      (env.buckets.find? (coversBothChains order)).isSome = false) ∧
    (processOrder env = .error .alreadyFulfilled ↔
      ((env.buckets.find? (coversBothChains order)).isSome = true ∧
        takeStatusBlocks env.takeOrderStatus = true)) ∧
    (processOrder env = .error .notCreatedOnSource ↔
      ((env.buckets.find? (coversBothChains order)).isSome = true ∧
        takeStatusBlocks env.takeOrderStatus = false ∧
        ¬ (env.giveOrderStatus = some OrderState.Created))) := by
  cases hcov : (env.buckets.find? (coversBothChains order)).isSome with
  | false => simp [processOrder, ho, hid, hcov]
  | true =>
    cases htk : takeStatusBlocks env.takeOrderStatus with
    | true => simp [processOrder, ho, hid, hcov, htk]
    | false =>
      by_cases hg : env.giveOrderStatus = some OrderState.Created
      · cases hp : env.isProfitable with
        | false => simp [processOrder, ho, hid, hcov, htk, hg, hp]
        | true =>
          by_cases hbal : env.accountReserveBalance < env.requiredReserveDstAmount
          · simp [processOrder, ho, hid, hcov, htk, hg, hp, hbal]
          · cases hs : env.fulfillSendOk with
            | false => simp [processOrder, ho, hid, hcov, htk, hg, hp, hbal, hs]
            | true =>
              cases hf : env.fulfillObserved with
              | false => simp [processOrder, ho, hid, hcov, htk, hg, hp, hbal, hs, hf]
              | true => simp [processOrder, ho, hid, hcov, htk, hg, hp, hbal, hs, hf]
      · simp [processOrder, ho, hid, hcov, htk, hg]

/-- Witness for C5: an environment with no buckets fails with
noReserveCoverage. -/
theorem processOrder_precheck_errors_witness :
    processOrder
        { order := some { give := { chainId := 1, tokenAddress := [1] },
                          take := { chainId := 2, tokenAddress := [2] } },
          orderId := "o", buckets := [], takeOrderStatus := none,
          giveOrderStatus := some OrderState.Created, isProfitable := true,
          accountReserveBalance := 5, requiredReserveDstAmount := 3,
          fulfillSendOk := true, fulfillObserved := true } =
      .error .noReserveCoverage :=
  (processOrder_precheck_errors _
      { give := { chainId := 1, tokenAddress := [1] },
        take := { chainId := 2, tokenAddress := [2] } }
      rfl (by decide)).1.mpr rfl

/-- C6: soft failures defer to the mempool: when the prechecks pass and
the order is unprofitable, or the operator balance of the reserve token is
below the required amount, or the fulfill transaction send fails,
processOrder hands the order to the mempool and returns without an
error. -/
theorem processOrder_soft_failures (env : ProcessOrderEnv) (order : OrderData)
    (ho : env.order = some order) (hid : ¬ env.orderId = "")
    (hcov : (env.buckets.find? (coversBothChains order)).isSome = true)
    (htk : takeStatusBlocks env.takeOrderStatus = false)
    (hg : env.giveOrderStatus = some OrderState.Created)
    (hsoft : env.isProfitable = false ∨
      env.accountReserveBalance < env.requiredReserveDstAmount ∨
      env.fulfillSendOk = false) :
    processOrder env = .ok .mempooled := by
  rcases hsoft with hp | hbal | hs
  · simp [processOrder, ho, hid, hcov, htk, hg, hp]
  · cases hp : env.isProfitable with
    | false => simp [processOrder, ho, hid, hcov, htk, hg, hp]
    | true => simp [processOrder, ho, hid, hcov, htk, hg, hp, hbal]
  · cases hp : env.isProfitable with
    | false => simp [processOrder, ho, hid, hcov, htk, hg, hp]
    | true =>
      by_cases hbal : env.accountReserveBalance < env.requiredReserveDstAmount
      · simp [processOrder, ho, hid, hcov, htk, hg, hp, hbal]
      · simp [processOrder, ho, hid, hcov, htk, hg, hp, hbal, hs]

/-- Witness for C6: an unprofitable order with passing prechecks lands in
the mempool. -/
theorem processOrder_soft_failures_witness :
    processOrder
        { order := some { give := { chainId := 1, tokenAddress := [1] },
                          take := { chainId := 2, tokenAddress := [2] } },
          orderId := "o",
          buckets := [{ tokens := fun _ => [[7]] }],
          takeOrderStatus := some OrderState.NotSet,
          giveOrderStatus := some OrderState.Created, isProfitable := false,
          accountReserveBalance := 5, requiredReserveDstAmount := 3,
          fulfillSendOk := true, fulfillObserved := true } =
      .ok .mempooled :=
  processOrder_soft_failures _
    { give := { chainId := 1, tokenAddress := [1] },
      take := { chainId := 2, tokenAddress := [2] } }
    rfl (by decide) rfl rfl rfl (Or.inl rfl)

/-- C9: StrictProcessor.process admits an order exactly when the take
token byte-equals one of the pre-approved buffers; a non-approved order is
dropped at once with the notAllowed exit, and an admitted order proceeds
to fulfill and immediate unlock (completing whenever the map check, the
sends and, on Solana, the fulfillment wait succeed) with no profitability
gate and no mempool deferral anywhere in the control flow. -/
theorem strictProcessor_admission (env : StrictEnv) :
    (strictProcess env = .notAllowed ↔
      ∀ t ∈ env.approvedTokensInBuffer,
        buffersAreEqual env.takeTokenAddress t = false) ∧
    ((∃ t ∈ env.approvedTokensInBuffer,
        buffersAreEqual env.takeTokenAddress t = true) →
      env.orderFulfilledHit = false → env.fulfillSendOk = true →
      (env.takeChainId = solanaChainId → env.solanaFulfillObserved = true) →
      env.unlockSendOk = true →
      strictProcess env = .completed) := by
  constructor
  · cases happ : env.approvedTokensInBuffer.any
        (fun address => buffersAreEqual env.takeTokenAddress address) with
    | false =>
      simp only [List.any_eq_false] at happ
      constructor
      · intro _ t ht
        simpa using happ t ht
      · intro _
        simp [strictProcess, List.any_eq_false.mpr happ]
    | true =>
      constructor
      · intro hres
        exfalso
        revert hres
        simp only [strictProcess, happ]
        by_cases h1 : env.orderFulfilledHit <;>
          by_cases h2 : env.fulfillSendOk = false <;>
            by_cases h3 : env.takeChainId = solanaChainId ∧
              env.solanaFulfillObserved = false <;>
              by_cases h4 : env.unlockSendOk = false <;>
                simp [h1, h2, h3, h4]
      · intro hall
        rcases List.any_eq_true.mp happ with ⟨t, ht, heq⟩
        have := hall t ht
        simp [heq] at this
  · intro hex h1 h2 h3 h4
    have happ : env.approvedTokensInBuffer.any
        (fun address => buffersAreEqual env.takeTokenAddress address) = true := by
      rcases hex with ⟨t, ht, heq⟩
      exact List.any_eq_true.mpr ⟨t, ht, heq⟩
    have hsol : ¬ (env.takeChainId = solanaChainId ∧
        env.solanaFulfillObserved = false) := by
      rintro ⟨hc, hobs⟩
      rw [h3 hc] at hobs
      exact Bool.noConfusion hobs
    simp [strictProcess, happ, h1, h2, h4, hsol]

/-- Witness for C9: the approved token [1, 2] is admitted on an EVM take
chain and completes with fulfill and unlock. -/
theorem strictProcessor_admission_witness :
    strictProcess
        { approvedTokensInBuffer := [[1, 2], [3]], takeTokenAddress := [1, 2],
          takeChainId := 137, orderFulfilledHit := false,
          fulfillSendOk := true, solanaFulfillObserved := false,
          unlockSendOk := true } =
      .completed :=
  (strictProcessor_admission _).2 ⟨[1, 2], by decide, by decide⟩ rfl rfl
    (fun hc => absurd hc (by decide)) rfl

/-- C3: for a Created or ArchivalCreated event whose give and take chains
are both configured, the Executor forwards the order to the destination
processor exactly when every filter of the combined list - the global
filters (merged into the effective dstFilters at init), the take-chain
dstFilters and the give-chain srcFilters - returns true, and drops it by
filters exactly when some filter returns false; events of the remaining
statuses are forwarded without evaluating any filter. -/
theorem executor_filter_unanimity
    (chains : ChainId → Option ExecutorChain) (ev : IncomingOrder)
    (order : OrderData)
    (gFilters dFilters sFilters otherSrc otherDst : List OrderFilter)
    (ho : ev.order = some order) (hid : ¬ ev.orderId = "")
    (htake : chains order.take.chainId =
      some { dstFilters := mkDstFilters dFilters false gFilters,
             srcFilters := otherSrc })
    (hgive : chains order.give.chainId =
      some { dstFilters := otherDst, srcFilters := sFilters }) :
    ((ev.status = .Created ∨ ev.status = .ArchivalCreated) →
      ((executeOrder chains ev = .forwarded ↔
        (gFilters ++ dFilters ++ sFilters).all (fun f => f order) = true) ∧
       (executeOrder chains ev = .droppedByFilters ↔
        (gFilters ++ dFilters ++ sFilters).all (fun f => f order) = false))) ∧
    ((ev.status = .Fulfilled ∨ ev.status = .ArchivalFulfilled ∨
        ev.status = .Cancelled) →
      executeOrder chains ev = .forwarded) := by
  have hall2 : (mkDstFilters dFilters false gFilters ++ sFilters).all
      (fun f => f order) =
      (gFilters ++ dFilters ++ sFilters).all (fun f => f order) := by
    simp only [mkDstFilters, if_neg (by decide : ¬ (False : Prop)), List.all_append]
    cases gFilters.all (fun f => f order) <;>
      cases dFilters.all (fun f => f order) <;>
        cases sFilters.all (fun f => f order) <;> rfl
  constructor
  · intro hstatus
    cases hall : (gFilters ++ dFilters ++ sFilters).all (fun f => f order) with
    | true =>
      have hx : (mkDstFilters dFilters false gFilters ++ sFilters).all
          (fun f => f order) = true := by rw [hall2, hall]
      simp [executeOrder, ho, hid, htake, hgive, hstatus, hx]
    | false =>
      have hx : (mkDstFilters dFilters false gFilters ++ sFilters).all
          (fun f => f order) = false := by rw [hall2, hall]
      simp [executeOrder, ho, hid, htake, hgive, hstatus, hx]
  · intro hstatus
    have h1 : ¬ (ev.status = .Created ∨ ev.status = .ArchivalCreated) := by
      rcases hstatus with h | h | h <;> simp [h]
    simp [executeOrder, ho, hid, htake, hgive, h1]

/-- Witness for C3: a Created order on a configured pair of chains with
one global filter, one destination filter and one rejecting source filter
is dropped by filters; with the source filter approving it is
forwarded. -/
theorem executor_filter_unanimity_witness :
    executeOrder
        (fun c =>
          if c = 2 then
            some { dstFilters := mkDstFilters [fun _ => true] false [fun _ => true],
                   srcFilters := [] }
          else if c = 1 then
            some { dstFilters := [], srcFilters := [fun _ => false] }
          else none)
        { orderId := "o", status := .Created,
          order := some { give := { chainId := 1, tokenAddress := [1] },
                          take := { chainId := 2, tokenAddress := [2] } } } =
      .droppedByFilters :=
  ((executor_filter_unanimity _ _
      { give := { chainId := 1, tokenAddress := [1] },
        take := { chainId := 2, tokenAddress := [2] } }
      [fun _ => true] [fun _ => true] [fun _ => false] [] []
      rfl (by decide) rfl rfl).1 (Or.inl rfl)).2.mpr rfl

/-- C2: pickNextOrder always yields the earliest-inserted id of the
priority queue when that queue is non-empty and only otherwise the
earliest-inserted id of the secondary queue; consequently a busy processor
that postponed the events C1 (Created), A1 (ArchivalCreated),
C2 (Created), A2 (ArchivalCreated) drains them, once the in-flight order
completes, in the order C1, C2, A1, A2. -/
theorem pickNextOrder_priority :
    (∀ (st : ProcQueues) (id : OrderId) (rest : List OrderId) (k : CreatedKind),
        st.prio = id :: rest → ¬ id = "" →
        lookupPending st.pending id = some k →
        (pickNextOrder st).1 = some (id, k)) ∧
    (∀ (st : ProcQueues) (id : OrderId) (rest : List OrderId) (k : CreatedKind),
        st.prio = [] → st.sec = id :: rest → ¬ id = "" →
        lookupPending st.pending id = some k →
        (pickNextOrder st).1 = some (id, k)) ∧
    (drainAll (postpone (postpone (postpone (postpone
        { prio := [], sec := [], pending := [] } "C1" CreatedKind.created)
        "A1" CreatedKind.archivalCreated) "C2" CreatedKind.created)
        "A2" CreatedKind.archivalCreated)).2 = ["C1", "C2", "A1", "A2"] := by
  refine ⟨?_, ?_, ?_⟩
  · intro st id rest k hprio hid hlook
    simp [pickNextOrder, hprio, hid, hlook]
  · intro st id rest k hprio hsec hid hlook
    simp [pickNextOrder, hprio, hsec, hid, hlook]
  · decide

/-- Witness for C2: a state with a non-empty priority queue yields its
first element. -/
theorem pickNextOrder_priority_witness :
    (pickNextOrder
        { prio := ["a"], sec := ["b"],
          pending := [("a", CreatedKind.created),
                      ("b", CreatedKind.archivalCreated)] }).1 =
      some ("a", CreatedKind.created) :=
  pickNextOrder_priority.1 _ "a" [] CreatedKind.created rfl (by decide) rfl

/-- Counterexample to C8 as stated: when the same orderId arrives twice
while the processor is locked with two different created statuses -
Created first, ArchivalCreated second - the second insertion does change
the queue membership (the id is added to the secondary queue), and the id
then appears in both queues at once, so it does not appear at most once
across the primary and secondary queues. -/
theorem queue_idempotence_cex :
    (postpone (postpone { prio := [], sec := [], pending := [] }
        "x" CreatedKind.created) "x" CreatedKind.archivalCreated).sec ≠
      (postpone { prio := [], sec := [], pending := [] }
        "x" CreatedKind.created).sec ∧
    ((postpone (postpone { prio := [], sec := [], pending := [] }
        "x" CreatedKind.created) "x" CreatedKind.archivalCreated).prio ++
     (postpone (postpone { prio := [], sec := [], pending := [] }
        "x" CreatedKind.created) "x" CreatedKind.archivalCreated).sec).count "x" = 2 := by
  decide

/-- C8 amended: a second arrival of the same orderId with the same created
status while the processor is locked leaves both queues unchanged (queues
are sets); when the two arrivals carry different created statuses the id
may sit in both queues, but in every case it yields exactly one eventual
processing attempt, because pickNextOrder deletes a picked id from both
queues - as the drained mixed-status scenario shows. -/
theorem queue_idempotent_enqueue :
    (∀ (st : ProcQueues) (id : OrderId) (k : CreatedKind),
        (postpone (postpone st id k) id k).prio = (postpone st id k).prio ∧
        (postpone (postpone st id k) id k).sec = (postpone st id k).sec) ∧
    (drainAll (postpone (postpone { prio := [], sec := [], pending := [] }
        "x" CreatedKind.created) "x" CreatedKind.archivalCreated)).2 = ["x"] := by
  constructor
  · intro st id k
    cases k with
    | created => exact ⟨by simp [postpone, setAdd_idem], by simp [postpone]⟩
    | archivalCreated => exact ⟨by simp [postpone], by simp [postpone, setAdd_idem]⟩
  · decide

/-- C1: in every state the processor machine can reach, at most one
processOrder invocation is active and the isLocked flag is set exactly
while one is active - so tryProcess starts processOrder only from the
unlocked state, locks around the invocation, and a Created or
ArchivalCreated event arriving while locked is only postponed into the
queues, never processed re-entrantly (the arrival leaves the set of active
invocations untouched). -/
theorem processor_serialization :
    (∀ s : Machine, Reachable s →
        s.active.length ≤ 1 ∧ (s.locked = true ↔ s.active ≠ [])) ∧
    (∀ (s : Machine) (id : OrderId) (k : CreatedKind), s.locked = true →
        (arriveStep s id k).active = s.active ∧
        (arriveStep s id k).locked = true) := by
  constructor
  · intro s hs
    induction hs with
    | base => simp [machine0]
    | next s t hs st ih =>
      cases st with
      | arrive id k =>
        unfold arriveStep
        by_cases hl : s.locked
        · simpa [hl] using ih
        · have ha : s.active = [] := by
            by_contra hne
            have := ih.2.mpr hne
            exact hl this
          simp [hl, ha]
      | complete id rest h =>
        have hr : rest = [] := by
          have := ih.1
          rw [h] at this
          simp at this
          exact this
        subst hr
        unfold completeStep
        rcases hp : pickNextOrder s.q with ⟨o, q2⟩
        cases o with
        | none => simp [hp]
        | some nxt => simp [hp]
  · intro s id k hl
    simp [arriveStep, hl]

/-- Witness for C1: the state reached by one arrival from the initial
machine has at most one active invocation and its lock set. -/
theorem processor_serialization_witness :
    (arriveStep machine0 "o1" CreatedKind.created).active.length ≤ 1 ∧
      ((arriveStep machine0 "o1" CreatedKind.created).locked = true ↔
        (arriveStep machine0 "o1" CreatedKind.created).active ≠ []) :=
  processor_serialization.1 _
    (Reachable.next _ _ Reachable.base (Step.arrive machine0 "o1" CreatedKind.created))

/-- C4: getConfirmationRanges succeeds exactly when, walking the
thresholds sorted ascending by USD amount, every minBlockConfirmations is
strictly greater than the previous one (starting from 0) and strictly
less than the chain hard cap - so a violation throws the startup error -
and for every configuration it accepts, any two configured thresholds
with t1.usd < t2.usd satisfy
t1.minBlockConfirmations < t2.minBlockConfirmations < hardCap(chain). -/
theorem confirmationRanges_spec (chain : SupportedChain)
    (ts : List ConfirmationThreshold) :
    exOk (getConfirmationRanges chain ts) =
      validThresholdSeq (BLOCK_CONFIRMATIONS_HARD_CAPS chain) 0
        (sortThresholds ts) ∧
    ∀ rs, getConfirmationRanges chain ts = .ok rs →
      ∀ t1 ∈ ts, ∀ t2 ∈ ts,
        t1.thresholdAmountInUSD < t2.thresholdAmountInUSD →
        t1.minBlockConfirmations < t2.minBlockConfirmations ∧
        t2.minBlockConfirmations < BLOCK_CONFIRMATIONS_HARD_CAPS chain := by
  constructor
  · exact checkThresholds_ok_iff (BLOCK_CONFIRMATIONS_HARD_CAPS chain)
      (sortThresholds ts) { thresholdAmountInUSD := 0, minBlockConfirmations := 0 }
  · intro rs hok t1 h1 t2 h2 husd
    have hvalid : validThresholdSeq (BLOCK_CONFIRMATIONS_HARD_CAPS chain) 0
        (sortThresholds ts) = true := by
      have := checkThresholds_ok_iff (BLOCK_CONFIRMATIONS_HARD_CAPS chain)
        (sortThresholds ts) { thresholdAmountInUSD := 0, minBlockConfirmations := 0 }
      rw [getConfirmationRanges] at hok
      rw [hok] at this
      exact this.symm
    obtain ⟨hbound, hpw⟩ := validSeq_props (BLOCK_CONFIRMATIONS_HARD_CAPS chain)
      (sortThresholds ts) 0 hvalid
    have hsorted : List.Pairwise usdLE (sortThresholds ts) :=
      List.sorted_insertionSort usdLE ts
    have m1 : t1 ∈ sortThresholds ts := by
      simpa [sortThresholds] using h1
    have m2 : t2 ∈ sortThresholds ts := by
      simpa [sortThresholds] using h2
    exact ⟨pairwise_usd_bc (sortThresholds ts) hsorted hpw t1 m1 t2 m2 husd,
      (hbound t2 m2).2⟩

/-- Witness for C4: the unsorted Polygon thresholds (1000 USD, 10 conf)
and (100 USD, 5 conf) are accepted and ordered, giving 5 < 10 < 256. -/
theorem confirmationRanges_spec_witness :
    (5 : Nat) < 10 ∧ (10 : Nat) < 256 :=
  (confirmationRanges_spec SupportedChain.Polygon
      [{ thresholdAmountInUSD := 1000, minBlockConfirmations := 10 },
       { thresholdAmountInUSD := 100, minBlockConfirmations := 5 }]).2
    [{ usdWorthFrom := 0, usdWorthTo := 100, minBlockConfirmations := 5 },
     { usdWorthFrom := 100, usdWorthTo := 1000, minBlockConfirmations := 10 }]
    rfl
    { thresholdAmountInUSD := 100, minBlockConfirmations := 5 } (by decide)
    { thresholdAmountInUSD := 1000, minBlockConfirmations := 10 } (by decide)
    (by decide)
